import Mathlib

/-!
# Plane-vs-convex persistent contact manifold (GuPCMContactPlaneConvex.cpp)

A shallow embedding of `pcmContactPlaneConvex` and the properties of its
full-generation loop, its regeneration test and its output.

Scalars (`PxReal`, `FloatV`) are exact rationals: every statement below is a
statement over exact arithmetic, rounding is not modelled.
-/

namespace PhysX

/-- Scalar type of the embedding: `PxReal` / `FloatV` read as exact rationals. -/
abbrev PxReal := ℚ

/-- Three-component vector (`PxVec3`, `Vec3V`). -/
structure Vec3 where
  x : PxReal
  y : PxReal
  z : PxReal
deriving DecidableEq

/-- Four-component vector (`Vec4V`). -/
structure Vec4 where
  x : PxReal
  y : PxReal
  z : PxReal
  w : PxReal
deriving DecidableEq

/-- Quaternion (`PxQuat`, `QuatV`), components x, y, z and real part w. -/
structure Quat where
  x : PxReal
  y : PxReal
  z : PxReal
  w : PxReal
deriving DecidableEq

/-- Column-major 3x3 matrix (`Mat33V`). -/
structure Mat33 where
  col0 : Vec3
  col1 : Vec3
  col2 : Vec3
deriving DecidableEq

/-! ## Vector primitives

The `Ps::aos` primitives are not part of the translated file; they are given
their usual linear-algebra meaning. -/

/-- Modelled from the spec: `V3UnitX`, the unit X axis. -/
def V3UnitX : Vec3 := ⟨1, 0, 0⟩

/-- Modelled from the spec: `V3GetX`, the x component. -/
def V3GetX (a : Vec3) : PxReal := a.x

/-- Modelled from the spec: `V3Add`, component-wise sum. -/
def V3Add (a b : Vec3) : Vec3 := ⟨a.x + b.x, a.y + b.y, a.z + b.z⟩

/-- Modelled from the spec: `V3Sub`, component-wise difference. -/
def V3Sub (a b : Vec3) : Vec3 := ⟨a.x - b.x, a.y - b.y, a.z - b.z⟩

/-- Modelled from the spec: `V3Neg`, component-wise negation. -/
def V3Neg (a : Vec3) : Vec3 := ⟨-a.x, -a.y, -a.z⟩

/-- Modelled from the spec: `V3Scale`, vector times scalar. -/
def V3Scale (a : Vec3) (s : PxReal) : Vec3 := ⟨a.x * s, a.y * s, a.z * s⟩

/-- Modelled from the spec: `V3Dot`, the dot product. -/
def V3Dot (a b : Vec3) : PxReal := a.x * b.x + a.y * b.y + a.z * b.z

/-- Modelled from the spec: `V3Cross`, the cross product. -/
def V3Cross (a b : Vec3) : Vec3 :=
  ⟨a.y * b.z - a.z * b.y, a.z * b.x - a.x * b.z, a.x * b.y - a.y * b.x⟩

/-- Modelled from the spec: `V3NegScaleSub a b c`, that is `c - a * b`. -/
def V3NegScaleSub (a : Vec3) (b : PxReal) (c : Vec3) : Vec3 := V3Sub c (V3Scale a b)

/-- Modelled from the spec: `V3Normalize`, the vector divided by its length. The
length is taken with the rational square root, which is exact whenever the
length is rational (in particular for unit vectors). -/
def V3Normalize (a : Vec3) : Vec3 := V3Scale a (1 / Rat.sqrt (V3Dot a a))

/-- Modelled from the spec: `Vec4V_From_Vec3V`, the vector with a zero w. -/
def Vec4V_From_Vec3V (a : Vec3) : Vec4 := ⟨a.x, a.y, a.z, 0⟩

/-- Modelled from the spec: `Vec3V_From_Vec4V`, dropping w. -/
def Vec3V_From_Vec4V (a : Vec4) : Vec3 := ⟨a.x, a.y, a.z⟩

/-- Modelled from the spec: `V4SetW`, replacing the w component. -/
def V4SetW (a : Vec4) (w : PxReal) : Vec4 := ⟨a.x, a.y, a.z, w⟩

/-- Modelled from the spec: `V4GetW`, the w component. -/
def V4GetW (a : Vec4) : PxReal := a.w

/-- Modelled from the spec: `M33MulV3`, matrix times column vector. -/
def M33MulV3 (m : Mat33) (v : Vec3) : Vec3 :=
  V3Add (V3Add (V3Scale m.col0 v.x) (V3Scale m.col1 v.y)) (V3Scale m.col2 v.z)

/-- Modelled from the spec: `M33MulM33`, matrix product, column by column. -/
def M33MulM33 (a b : Mat33) : Mat33 :=
  ⟨M33MulV3 a b.col0, M33MulV3 a b.col1, M33MulV3 a b.col2⟩

/-- Modelled from the spec: `M33Trnsps`, the transpose. -/
def M33Trnsps (m : Mat33) : Mat33 :=
  ⟨⟨m.col0.x, m.col1.x, m.col2.x⟩, ⟨m.col0.y, m.col1.y, m.col2.y⟩,
   ⟨m.col0.z, m.col1.z, m.col2.z⟩⟩

/-! ## Quaternions and transforms -/

/-- Modelled from the spec: `QuatConjugate`. -/
def QuatConjugate (q : Quat) : Quat := ⟨-q.x, -q.y, -q.z, q.w⟩

/-- Modelled from the spec: `QuatMul`, the Hamilton product. -/
def QuatMul (a b : Quat) : Quat :=
  ⟨a.w * b.x + b.w * a.x + a.y * b.z - b.y * a.z,
   a.w * b.y + b.w * a.y + a.z * b.x - b.z * a.x,
   a.w * b.z + b.w * a.z + a.x * b.y - b.x * a.y,
   a.w * b.w - a.x * b.x - a.y * b.y - a.z * b.z⟩

/-- Modelled from the spec: `QuatDot`, the four-component dot product. -/
def QuatDot (a b : Quat) : PxReal := a.x * b.x + a.y * b.y + a.z * b.z + a.w * b.w

/-- Modelled from the spec: `QuatGetMat33V`, the rotation matrix of a unit
quaternion. -/
def QuatGetMat33V (q : Quat) : Mat33 :=
  ⟨⟨1 - 2 * q.y * q.y - 2 * q.z * q.z, 2 * q.x * q.y + 2 * q.z * q.w,
    2 * q.x * q.z - 2 * q.y * q.w⟩,
   ⟨2 * q.x * q.y - 2 * q.z * q.w, 1 - 2 * q.x * q.x - 2 * q.z * q.z,
    2 * q.y * q.z + 2 * q.x * q.w⟩,
   ⟨2 * q.x * q.z + 2 * q.y * q.w, 2 * q.y * q.z - 2 * q.x * q.w,
    1 - 2 * q.x * q.x - 2 * q.y * q.y⟩⟩

/-- Modelled from the spec: `QuatRotate`, the vector rotated by a unit
quaternion. -/
def QuatRotate (q : Quat) (v : Vec3) : Vec3 := M33MulV3 (QuatGetMat33V q) v

/-- Modelled from the spec: `QuatGetBasisVector0`, the rotated X axis. -/
def QuatGetBasisVector0 (q : Quat) : Vec3 :=
  ⟨q.w * (q.w * 2) - 1 + q.x * (q.x * 2), q.z * (q.w * 2) + q.y * (q.x * 2),
   -q.y * (q.w * 2) + q.z * (q.x * 2)⟩

/-- Rigid transform with a quaternion rotation (`PxTransform`, `PsTransformV`). -/
structure PsTransformV where
  q : Quat
  p : Vec3
deriving DecidableEq

/-- Modelled from the spec: `loadTransformA`, loading a `PxTransform` unchanged. -/
def loadTransformA (t : PsTransformV) : PsTransformV := t

/-- Modelled from the spec: `PsTransformV::transform`, rotate then translate. -/
def PsTransformV.transform (t : PsTransformV) (v : Vec3) : Vec3 :=
  V3Add (QuatRotate t.q v) t.p

/-- Modelled from the spec: `PsTransformV::transformInv`, the argument expressed
in the frame of the receiver: `[r^-1 * (src.p - p), r^-1 * src.q]`. -/
def PsTransformV.transformInv (t src : PsTransformV) : PsTransformV :=
  let qinv := QuatConjugate t.q
  ⟨QuatMul qinv src.q, QuatRotate qinv (V3Sub src.p t.p)⟩

/-- Rigid transform with a matrix rotation (`PsMatTransformV`). -/
structure PsMatTransformV where
  p : Vec3
  rot : Mat33
deriving DecidableEq

/-- Modelled from the spec: the `PsMatTransformV(const PsTransformV&)`
constructor. -/
def PsMatTransformV.ofTransform (t : PsTransformV) : PsMatTransformV :=
  ⟨t.p, QuatGetMat33V t.q⟩

/-- Modelled from the spec: `PsMatTransformV::transform`, `p + rot * v`. -/
def PsMatTransformV.transform (t : PsMatTransformV) (v : Vec3) : Vec3 :=
  V3Add t.p (M33MulV3 t.rot v)

/-- Modelled from the spec: `ConstructVertex2ShapeMatrix`, the map from vertex
space to shape space: `rot^T * diag(scale) * rot`. -/
def ConstructVertex2ShapeMatrix (scale : Vec3) (rotation : Quat) : Mat33 :=
  let rot := QuatGetMat33V rotation
  let trans := M33Trnsps rot
  let scaled : Mat33 :=
    ⟨V3Scale trans.col0 scale.x, V3Scale trans.col1 scale.y, V3Scale trans.col2 scale.z⟩
  M33MulM33 scaled rot

/-! ## Data model -/

/-- Modelled from the spec: `PxMeshScale`, declared outside the translated file:
the per-axis scale factors and the rotation of the scaling axes. -/
structure PxMeshScale where
  scale : Vec3
  rotation : Quat
deriving DecidableEq

/-- Modelled from the spec: `Gu::ConvexHullData`, declared outside the translated
file: the vertex count `mNbHullVertices` (a `PxU8`), the vertex array returned
by `getHullVertices()`, and the scalar collision margin of the hull. -/
structure ConvexHullData where
  mNbHullVertices : Nat
  hullVertices : List Vec3
  margin : PxReal
deriving DecidableEq

/-- Modelled from the spec: `getHullVertices()`, the vertex array of the hull. -/
def ConvexHullData.getHullVertices (h : ConvexHullData) : List Vec3 := h.hullVertices

/-- A hull the code can receive: the stored count is the length of the vertex
array and fits the `PxU8` it is stored in. -/
def ConvexHullData.WellFormed (h : ConvexHullData) : Prop :=
  h.hullVertices.length = h.mNbHullVertices ∧ h.mNbHullVertices < 256

/-- Modelled from the spec: `PxConvexMeshGeometryLL`, declared outside the
translated file: the scale and the hull of a convex shape. -/
structure PxConvexMeshGeometryLL where
  scale : PxMeshScale
  hullData : ConvexHullData
deriving DecidableEq

/-- Modelled from the spec: `Gu::PersistentContact`, declared outside the
translated file: the point on the convex in its shape space, the point on the
plane in plane space, and the normal with the separation in w. -/
structure PersistentContact where
  mLocalPointA : Vec3
  mLocalPointB : Vec3
  mLocalNormalPen : Vec4
deriving DecidableEq

/-- Modelled from the spec: `GU_MANIFOLD_CACHE_SIZE`, the capacity of a manifold,
which the spec gives as 4. -/
def GU_MANIFOLD_CACHE_SIZE : Nat := 4

/-- Modelled from the spec: `Gu::PersistentContactManifold`, declared outside the
translated file: the contact array, the number of live contacts in it, and the
relative transform at the last full generation. -/
structure PersistentContactManifold where
  mContactPoints : List PersistentContact
  mNumContacts : Nat
  mRelativeTransform : PsTransformV
deriving DecidableEq

/-- Modelled from the spec: `getNumContacts`, the number of live contacts. -/
def PersistentContactManifold.getNumContacts (m : PersistentContactManifold) : Nat :=
  m.mNumContacts

/-- Modelled from the spec: `setRelativeTransform`, which rewrites the stored
relative transform to the given one. -/
def PersistentContactManifold.setRelativeTransform (m : PersistentContactManifold)
    (t : PsTransformV) : PersistentContactManifold :=
  { m with mRelativeTransform := t }

/-- The live contacts of a manifold: the first `mNumContacts` array entries. -/
def PersistentContactManifold.contacts (m : PersistentContactManifold) :
    List PersistentContact :=
  m.mContactPoints.take m.mNumContacts

/-- Modelled from the spec: `Gu::ContactPoint`, declared outside the translated
file: a world-space contact with its normal, separation and position. -/
structure ContactPoint where
  normal : Vec3
  separation : PxReal
  point : Vec3
deriving DecidableEq

/-- One element of the array `ContactBuffer::contacts`. The array holds
`ContactPoint` records; `pcmContactPlaneConvex` also writes `PersistentContact`
records into the same storage, through the pointer
`PX_CP_TO_PCP(contactBuffer.contacts)` (source lines 90 and 110 to 112). An
element whose bytes were last written that way is `staged`: it no longer holds
the contact that was there. -/
inductive Slot where
  | point (c : ContactPoint)
  | staged
deriving DecidableEq

/-- Modelled from the spec: `Gu::ContactBuffer`, declared outside the translated
file: the array `contacts` and the number `count` of entries in use. -/
structure ContactBuffer where
  contacts : List Slot
  count : Nat
deriving DecidableEq

/-- The entries of a contact buffer: the first `count` array elements. -/
def ContactBuffer.entries (b : ContactBuffer) : List Slot := b.contacts.take b.count

/-- The manifold operations that `pcmContactPlaneConvex` calls and the two record
sizes that fix how the `PersistentContact` view of the contact buffer overlaps
its `ContactPoint` elements. None of them is defined in the translated file;
the entry routine is parametrised by them. -/
structure Externals where
  CalculatePCMConvexMargin : ConvexHullData → Vec3 → PxReal
  refreshContactPoints :
    PersistentContactManifold → PsTransformV → PxReal → PxReal → PersistentContactManifold
  invalidate_PrimitivesPlane :
    PersistentContactManifold → PsTransformV → PxReal → PxReal → Bool
  addBatchManifoldContacts :
    PersistentContactManifold → List PersistentContact → PersistentContactManifold
  addManifoldContactsToContactBuffer :
    PersistentContactManifold → ContactBuffer → Vec3 → PsTransformV → ContactBuffer
  sizeofContactPoint : Nat
  sizeofPersistentContact : Nat

/-- Arguments of a contact method (`GU_CONTACT_METHOD_ARGS`): `shape0` (the
plane, unused), the convex `shape1`, the plane transform `transform0`, the
convex transform `transform1`, `contactDistance`, the manifold of the cache
(`cache.getManifold()`) and the contact buffer. -/
structure ContactMethodArgs where
  shape1 : PxConvexMeshGeometryLL
  transform0 : PsTransformV
  transform1 : PsTransformV
  contactDistance : PxReal
  manifold : PersistentContactManifold
  contactBuffer : ContactBuffer
deriving DecidableEq

/-- What one invocation leaves behind: the manifold, the contact buffer and the
returned flag. `batchCall` records the call of `addBatchManifoldContacts` when
the regeneration branch runs: the manifold it is invoked on and the candidate
list it is handed; it is `none` on the cached branch. -/
structure Outcome where
  manifold : PersistentContactManifold
  contactBuffer : ContactBuffer
  result : Bool
  batchCall : Option (PersistentContactManifold × List PersistentContact)

/-! ## The entry routine -/

/-- The full-generation loop (source lines 95 to 114). `remaining` is the number
of iterations left, `i` the loop index, `manifoldContacts` the candidates
written so far (`numContacts` is its length). The loop runs `numVerts` times
with `i` counting up from 0. A read past the end of the vertex array, which a
well-formed hull never causes, yields the zero vector. -/
def generationLoop (verts : List Vec3) (aToBVertexSpace : PsMatTransformV)
    (vertex2Shape : Mat33) (contactDist : PxReal) (localNormal : Vec3) :
    Nat → Nat → List PersistentContact → List PersistentContact
  | 0, _, manifoldContacts => manifoldContacts
  | remaining + 1, i, manifoldContacts =>
    let pInVertexSpace := verts.getD i ⟨0, 0, 0⟩
    let pInPlaneSpace := aToBVertexSpace.transform pInVertexSpace
    let signDist := V3GetX pInPlaneSpace
    if contactDist > signDist then
      let pInShapeSpace := M33MulV3 vertex2Shape pInVertexSpace
      generationLoop verts aToBVertexSpace vertex2Shape contactDist localNormal remaining (i + 1)
        (manifoldContacts ++
          [⟨pInShapeSpace, V3NegScaleSub localNormal signDist pInPlaneSpace,
            V4SetW (Vec4V_From_Vec3V localNormal) signDist⟩])
    else
      generationLoop verts aToBVertexSpace vertex2Shape contactDist localNormal remaining (i + 1)
        manifoldContacts

/-- The array of the contact buffer after `n` records have been written through
the `PersistentContact` view, which starts at the first byte of the array. The
records cover the bytes below `n * sizeofPersistentContact`; element `j` of the
array starts at byte `j * sizeofContactPoint`, and becomes `staged` when that
is among them. The argument `j` is the index of the head of the list. -/
def stageSlots (sizeofContactPoint sizeofPersistentContact n : Nat) :
    Nat → List Slot → List Slot
  | _, [] => []
  | j, s :: rest =>
    (if j * sizeofContactPoint < n * sizeofPersistentContact then Slot.staged else s) ::
      stageSlots sizeofContactPoint sizeofPersistentContact n (j + 1) rest

/-- The contact buffer after `numContacts` candidates have been written through
`manifoldContacts = PX_CP_TO_PCP(contactBuffer.contacts)`. -/
def ContactBuffer.stage (ext : Externals) (b : ContactBuffer) (numContacts : Nat) :
    ContactBuffer :=
  { b with contacts :=
      stageSlots ext.sizeofContactPoint ext.sizeofPersistentContact numContacts 0 b.contacts }

/-- The routine `pcmContactPlaneConvex` (source lines 34 to 128). -/
def pcmContactPlaneConvex (ext : Externals) (a : ContactMethodArgs) : Outcome :=
  let manifold := a.manifold
  let shapeConvex := a.shape1
  let transf0 := loadTransformA a.transform1
  let transf1 := loadTransformA a.transform0
  let curTransf := transf1.transformInv transf0
  let vScale := shapeConvex.scale.scale
  let hullData := shapeConvex.hullData
  let convexMargin := ext.CalculatePCMConvexMargin hullData vScale
  let planeNormal := V3Normalize (QuatGetBasisVector0 transf1.q)
  let negPlaneNormal := V3Neg planeNormal
  let contactDist := a.contactDistance
  let projectBreakingThreshold := convexMargin * (1 / 5)
  let initialContacts := manifold.mNumContacts
  let manifold :=
    ext.refreshContactPoints manifold curTransf projectBreakingThreshold contactDist
  let newContacts := manifold.mNumContacts
  let bLostContacts := decide (newContacts ≠ initialContacts)
  if bLostContacts || ext.invalidate_PrimitivesPlane manifold curTransf convexMargin (1 / 5) then
    let aToB := PsMatTransformV.ofTransform curTransf
    let vQuat := shapeConvex.scale.rotation
    let vertex2Shape := ConstructVertex2ShapeMatrix vScale vQuat
    let localNormal := V3UnitX
    let manifold := { manifold with mNumContacts := 0 }
    let manifold := manifold.setRelativeTransform curTransf
    let verts := hullData.getHullVertices
    let numVerts := hullData.mNbHullVertices
    let aToBVertexSpace : PsMatTransformV := ⟨aToB.p, M33MulM33 aToB.rot vertex2Shape⟩
    let manifoldContacts :=
      generationLoop verts aToBVertexSpace vertex2Shape contactDist localNormal numVerts 0 []
    let numContacts := manifoldContacts.length
    let contactBuffer := a.contactBuffer.stage ext numContacts
    let cleared := manifold
    let manifold := ext.addBatchManifoldContacts manifold manifoldContacts
    let contactBuffer :=
      ext.addManifoldContactsToContactBuffer manifold contactBuffer negPlaneNormal transf1
    ⟨manifold, contactBuffer, decide (manifold.getNumContacts > 0),
      some (cleared, manifoldContacts)⟩
  else
    let contactBuffer :=
      ext.addManifoldContactsToContactBuffer manifold a.contactBuffer negPlaneNormal transf1
    ⟨manifold, contactBuffer, decide (manifold.getNumContacts > 0), none⟩

/-! ## The manifold operations, from their contracts

`refreshContactPoints`, `invalidate_PrimitivesPlane`, `addBatchManifoldContacts`,
`addManifoldContactsToContactBuffer` and `CalculatePCMConvexMargin` are defined
elsewhere in the SDK. The definitions below follow their contracts (sections
4.1, 4.2, 4.4 and 4.5 of the specification). -/

namespace Contract

/-- Modelled from the spec: `CalculatePCMConvexMargin`, which is not in the
translated file. The data model gives a hull one scalar collision margin. -/
def CalculatePCMConvexMargin (hullData : ConvexHullData) (_vScale : Vec3) : PxReal :=
  hullData.margin

/-- Modelled from the spec: the refresh of one cached contact (section 4.1),
which is not in the translated file. The contact is re-projected under the new
relative transform and its separation recomputed; it is dropped when its
lateral drift exceeds the breaking threshold (compared on squares) or its new
separation exceeds the maximum contact distance. -/
def refreshPoint (aToB : PsMatTransformV) (projectBreakingThreshold contactOffset : PxReal)
    (c : PersistentContact) : Option PersistentContact :=
  let localAInB := aToB.transform c.mLocalPointA
  let localBInB := c.mLocalPointB
  let localNormal := Vec3V_From_Vec4V c.mLocalNormalPen
  let dist := V3Dot (V3Sub localAInB localBInB) localNormal
  let projectedPoint := V3NegScaleSub localNormal dist localAInB
  let projectedDifference := V3Sub localBInB projectedPoint
  let distance2d := V3Dot projectedDifference projectedDifference
  if distance2d > projectBreakingThreshold * projectBreakingThreshold ∨ dist > contactOffset then
    none
  else
    some { c with mLocalNormalPen := V4SetW c.mLocalNormalPen dist }

/-- Modelled from the spec: `refreshContactPoints` (section 4.1), which is not in
the translated file. Every live contact is refreshed, the survivors stay in
order at the front of the array, and the count is updated in place; no contact
is added and the stored relative transform is left alone. -/
def refreshContactPoints (m : PersistentContactManifold) (curTransf : PsTransformV)
    (projectBreakingThreshold contactOffset : PxReal) : PersistentContactManifold :=
  let kept := m.contacts.filterMap
    (refreshPoint (PsMatTransformV.ofTransform curTransf) projectBreakingThreshold contactOffset)
  { m with mContactPoints := kept ++ m.mContactPoints.drop kept.length
           mNumContacts := kept.length }

/-- Largest absolute component of a vector. -/
def maxAbsComponent (v : Vec3) : PxReal := max (max |v.x| |v.y|) |v.z|

/-- Modelled from the spec: the manifold as it is created at first contact,
outside the translated file ("no cache exists"): no contact and no baseline.
The missing baseline is represented by a stored relative transform whose
quaternion is zero, which is the rotation of no rigid transform. -/
def firstContactManifold : PersistentContactManifold := ⟨[], 0, ⟨⟨0, 0, 0, 0⟩, ⟨0, 0, 0⟩⟩⟩

/-- Modelled from the spec: `invalidate_PrimitivesPlane` (section 4.2), which is
not in the translated file. A manifold without a baseline is treated as invalid
("no cache exists, treated as INVALID"). Otherwise the translational and the
rotational drift of the current relative transform from the stored one are
compared against the margin scaled by the ratio. The spec does not fix how
drift is measured: translation is measured by the largest component of the
position difference, rotation by how far the quaternion dot product falls
short of one. -/
def invalidate_PrimitivesPlane (m : PersistentContactManifold) (curRTrans : PsTransformV)
    (minMargin ratio : PxReal) : Bool :=
  let noBaseline := decide (m.mRelativeTransform.q = ⟨0, 0, 0, 0⟩)
  let threshold := minMargin * ratio
  let deltaP := maxAbsComponent (V3Sub curRTrans.p m.mRelativeTransform.p)
  let deltaQ := 1 - |QuatDot curRTrans.q m.mRelativeTransform.q|
  noBaseline || decide (deltaP > threshold) || decide (deltaQ > threshold)

/-- The separation stored in a contact. -/
def separation (c : PersistentContact) : PxReal := V4GetW c.mLocalNormalPen

/-- Twice the squared area of the triangle of three plane points, as the square
of the cross product of two of its edges. -/
def triangleAreaSq (a b c : Vec3) : PxReal :=
  let n := V3Cross (V3Sub b a) (V3Sub c a)
  V3Dot n n

/-- Modelled from the spec: the preference of the reducer (section 4.4). With
nothing selected yet the deepest candidate scores highest; afterwards a
candidate scores the area it spans with the points already selected, taken as
the sum of the squared triangle areas it forms with each pair of them. The spec
does not fix the area measure. -/
def reduceScore (selected : List PersistentContact) (c : PersistentContact) : PxReal :=
  match selected with
  | [] => -separation c
  | _ =>
    (selected.map fun a =>
      (selected.map fun b =>
        triangleAreaSq a.mLocalPointB b.mLocalPointB c.mLocalPointB).sum).sum

/-- The best element of a non-empty list under a score and the list without it.
Of several elements with the best score the first one (lowest vertex index)
wins. -/
def extractBest (score : PersistentContact → PxReal) :
    PersistentContact → List PersistentContact → PersistentContact × List PersistentContact
  | a, [] => (a, [])
  | a, b :: rest =>
    let r := extractBest score b rest
    if score a ≥ score r.1 then (a, b :: rest) else (r.1, a :: r.2)

/-- Modelled from the spec: the greedy selection of the reducer (section 4.4),
which is not in the translated file. While a slot is free and a candidate is
left, the best candidate under the score of the points selected so far is moved
to the selection. -/
def reduceLoop (score : List PersistentContact → PersistentContact → PxReal) :
    Nat → List PersistentContact → List PersistentContact → List PersistentContact
  | 0, selected, _ => selected
  | _ + 1, selected, [] => selected
  | free + 1, selected, c :: rest =>
    let r := extractBest (score selected) c rest
    reduceLoop score free (selected ++ [r.1]) r.2

/-- Modelled from the spec: `reduceBatchContacts` (section 4.4): at most
`GU_MANIFOLD_CACHE_SIZE` of the candidates. -/
def reduceBatchContacts (candidates : List PersistentContact) : List PersistentContact :=
  reduceLoop reduceScore GU_MANIFOLD_CACHE_SIZE [] candidates

/-- Modelled from the spec: `addBatchManifoldContacts` (section 4.4), which is not
in the translated file. The reduced candidates are written to the front of the
contact array and become the live contacts. -/
def addBatchManifoldContacts (m : PersistentContactManifold)
    (manifoldContacts : List PersistentContact) : PersistentContactManifold :=
  let kept := reduceBatchContacts manifoldContacts
  { m with mContactPoints := kept ++ m.mContactPoints.drop kept.length
           mNumContacts := kept.length }

/-- Modelled from the spec: the world-space contact emitted for one manifold
contact (section 4.5): the point on the plane taken to world space by the plane
transform, the shared normal, and the stored separation. -/
def worldContact (normal : Vec3) (transf1 : PsTransformV) (p : PersistentContact) : ContactPoint :=
  ⟨normal, V4GetW p.mLocalNormalPen, transf1.transform p.mLocalPointB⟩

/-- Modelled from the spec: `addManifoldContactsToContactBuffer` (section 4.5),
which is not in the translated file. Every live manifold contact is appended
to the contact buffer, after the entries in use. -/
def addManifoldContactsToContactBuffer (m : PersistentContactManifold) (b : ContactBuffer)
    (normal : Vec3) (transf1 : PsTransformV) : ContactBuffer :=
  let emitted := m.contacts.map fun p => Slot.point (worldContact normal transf1 p)
  { contacts := b.contacts.take b.count ++ emitted ++ b.contacts.drop (b.count + emitted.length)
    count := b.count + emitted.length }

/-- Modelled from the spec: the manifold operations by their contracts. The two
record sizes are those of three and of four 16-byte vectors; no theorem
depends on their values beyond both being positive. -/
def externals : Externals where
  CalculatePCMConvexMargin := CalculatePCMConvexMargin
  refreshContactPoints := refreshContactPoints
  invalidate_PrimitivesPlane := invalidate_PrimitivesPlane
  addBatchManifoldContacts := addBatchManifoldContacts
  addManifoldContactsToContactBuffer := addManifoldContactsToContactBuffer
  sizeofContactPoint := 64
  sizeofPersistentContact := 48

end Contract

/-! ## Quantities the properties are stated with -/

/-- The convex-to-plane transform of a call (`curTransf`): the inverse of the
plane transform composed with the convex transform. -/
def relativeTransform (a : ContactMethodArgs) : PsTransformV :=
  a.transform0.transformInv a.transform1

/-- The vertex-to-shape matrix of the convex of a call. -/
def vertex2Shape (a : ContactMethodArgs) : Mat33 :=
  ConstructVertex2ShapeMatrix a.shape1.scale.scale a.shape1.scale.rotation

/-- The position of a hull vertex in plane space:
`aToB.p + (aToB.rot * vertex2Shape) * v`. -/
def planeSpacePosition (a : ContactMethodArgs) (v : Vec3) : Vec3 :=
  let aToB := PsMatTransformV.ofTransform (relativeTransform a)
  V3Add aToB.p (M33MulV3 (M33MulM33 aToB.rot (vertex2Shape a)) v)

/-- The signed distance of a hull vertex to the plane: the x coordinate of its
plane-space position. -/
def signedDistance (a : ContactMethodArgs) (v : Vec3) : PxReal := (planeSpacePosition a v).x

/-- The contact described for a hull vertex: the vertex in shape space, its
plane-space position with x set to zero, the unit X normal and the signed
distance as separation. -/
def candidateOf (a : ContactMethodArgs) (v : Vec3) : PersistentContact :=
  ⟨M33MulV3 (vertex2Shape a) v, ⟨0, (planeSpacePosition a v).y, (planeSpacePosition a v).z⟩,
    ⟨1, 0, 0, signedDistance a v⟩⟩

/-- The manifold after the refresh of a call (source line 66). -/
def refreshed (ext : Externals) (a : ContactMethodArgs) : PersistentContactManifold :=
  ext.refreshContactPoints a.manifold (relativeTransform a)
    (ext.CalculatePCMConvexMargin a.shape1.hullData a.shape1.scale.scale * (1 / 5))
    a.contactDistance

/-- The answer of the invalidation test of a call (second operand of source
line 74). -/
def invalidated (ext : Externals) (a : ContactMethodArgs) : Bool :=
  ext.invalidate_PrimitivesPlane (refreshed ext a) (relativeTransform a)
    (ext.CalculatePCMConvexMargin a.shape1.hullData a.shape1.scale.scale) (1 / 5)

/-- The refreshed manifold with its count zeroed and its relative transform
rewritten (source lines 85 and 86). -/
def clearedManifold (ext : Externals) (a : ContactMethodArgs) : PersistentContactManifold :=
  { refreshed ext a with mNumContacts := 0, mRelativeTransform := relativeTransform a }

/-- The candidates written by the full-generation loop of a call. -/
def candidates (a : ContactMethodArgs) : List PersistentContact :=
  generationLoop a.shape1.hullData.hullVertices
    ⟨(PsMatTransformV.ofTransform (relativeTransform a)).p,
      M33MulM33 (PsMatTransformV.ofTransform (relativeTransform a)).rot (vertex2Shape a)⟩
    (vertex2Shape a) a.contactDistance V3UnitX a.shape1.hullData.mNbHullVertices 0 []

/-- The world-space normal attached to the emitted contacts (`negPlaneNormal`). -/
def worldNormal (a : ContactMethodArgs) : Vec3 :=
  V3Neg (V3Normalize (QuatGetBasisVector0 a.transform0.q))

/-- What one loop iteration adds for a vertex, if anything (source lines 98 to
113). -/
def loopStep (T : PsMatTransformV) (M : Mat33) (cd : PxReal) (N : Vec3) (v : Vec3) :
    Option PersistentContact :=
  if cd > V3GetX (T.transform v) then
    some ⟨M33MulV3 M v, V3NegScaleSub N (V3GetX (T.transform v)) (T.transform v),
      V4SetW (Vec4V_From_Vec3V N) (V3GetX (T.transform v))⟩
  else none

/-- The conjugation `q v q*` of a vector by a quaternion, which for a unit
quaternion is the rotation of the vector. -/
def quatSandwich (q : Quat) (v : Vec3) : Vec3 :=
  V3Sub (QuatRotate q v) (V3Scale v (1 - QuatDot q q))

/-! ## Sample inputs -/

/-- The identity rotation. -/
def quatIdentity : Quat := ⟨0, 0, 0, 1⟩

/-- The identity transform. -/
def transformIdentity : PsTransformV := ⟨quatIdentity, ⟨0, 0, 0⟩⟩

/-- The corners of the axis-aligned unit cube. -/
def unitCube : List Vec3 :=
  [⟨0, 0, 0⟩, ⟨0, 0, 1⟩, ⟨0, 1, 0⟩, ⟨0, 1, 1⟩, ⟨1, 0, 0⟩, ⟨1, 0, 1⟩, ⟨1, 1, 0⟩, ⟨1, 1, 1⟩]

/-- The unit cube as a convex mesh with identity scale and margin 1. -/
def cubeShape : PxConvexMeshGeometryLL := ⟨⟨⟨1, 1, 1⟩, quatIdentity⟩, ⟨8, unitCube, 1⟩⟩

/-- An empty manifold whose stored relative transform is far from any used
below, as left by an earlier, distant configuration. -/
def farManifold : PersistentContactManifold := ⟨[], 0, ⟨quatIdentity, ⟨100, 0, 0⟩⟩⟩

/-- An empty contact buffer. -/
def emptyBuffer : ContactBuffer := ⟨[], 0⟩

/-- The cube resting with its face x = 0 on the plane x = 0, contact distance
1/100, an empty manifold and an empty contact buffer. -/
def cubeArgs : ContactMethodArgs :=
  ⟨cubeShape, transformIdentity, transformIdentity, 1 / 100, farManifold, emptyBuffer⟩

/-- A manifold holding the four face contacts of the resting cube, the first of
which has slid sideways by 3 on the plane. Its stored relative transform is the
identity. -/
def slidManifold : PersistentContactManifold :=
  ⟨[⟨⟨0, 0, 0⟩, ⟨0, 3, 0⟩, ⟨1, 0, 0, 0⟩⟩, ⟨⟨0, 0, 1⟩, ⟨0, 0, 1⟩, ⟨1, 0, 0, 0⟩⟩,
    ⟨⟨0, 1, 0⟩, ⟨0, 1, 0⟩, ⟨1, 0, 0, 0⟩⟩, ⟨⟨0, 1, 1⟩, ⟨0, 1, 1⟩, ⟨1, 0, 0, 0⟩⟩], 4,
    transformIdentity⟩

/-- The resting cube with the manifold of which one contact has slid; the
relative transform has not moved. -/
def slidArgs : ContactMethodArgs :=
  ⟨cubeShape, transformIdentity, transformIdentity, 1 / 100, slidManifold, emptyBuffer⟩

/-- The resting cube with a contact distance of 2, below which all eight
vertices lie. -/
def deepCubeArgs : ContactMethodArgs :=
  ⟨cubeShape, transformIdentity, transformIdentity, 2, farManifold, emptyBuffer⟩

/-- A hull of four vertices of which two lie on the plane. -/
def wedgeShape : PxConvexMeshGeometryLL :=
  ⟨⟨⟨1, 1, 1⟩, quatIdentity⟩, ⟨4, [⟨0, 0, 0⟩, ⟨0, 1, 0⟩, ⟨1, 0, 0⟩, ⟨1, 1, 1⟩], 1⟩⟩

/-- The wedge resting with an edge on the plane. -/
def wedgeArgs : ContactMethodArgs :=
  ⟨wedgeShape, transformIdentity, transformIdentity, 1 / 100, farManifold, emptyBuffer⟩

/-- The cube held 5 above the plane, beyond the contact distance, with a
manifold whose stored transform is out of date. -/
def separatedArgs : ContactMethodArgs :=
  ⟨cubeShape, transformIdentity, ⟨quatIdentity, ⟨5, 0, 0⟩⟩, 1 / 100, farManifold, emptyBuffer⟩

/-- A contact buffer with one entry in use. -/
def busyBuffer : ContactBuffer := ⟨[Slot.point ⟨⟨-1, 0, 0⟩, 0, ⟨7, 7, 7⟩⟩], 1⟩

/-- The next call for the resting cube: same transforms, the manifold left by
the call on `cubeArgs` with its four contacts, and a contact buffer that
already has an entry. -/
def restingAgainArgs : ContactMethodArgs :=
  { cubeArgs with
    manifold := (pcmContactPlaneConvex Contract.externals cubeArgs).manifold
    contactBuffer := busyBuffer }

/-- The separated cube, called with a contact buffer that already has an
entry. -/
def separatedBusyArgs : ContactMethodArgs :=
  { separatedArgs with contactBuffer := busyBuffer }

/-- The first call for the resting cube: the manifold is the one created at
first contact. -/
def firstContactArgs : ContactMethodArgs :=
  { cubeArgs with manifold := Contract.firstContactManifold }

/-- The resting cube, called with a contact buffer that already has an entry. -/
def busyArgs : ContactMethodArgs :=
  ⟨cubeShape, transformIdentity, transformIdentity, 1 / 100, farManifold, busyBuffer⟩

/-- The append-only reading of the contact buffer: the entries in use before
the call are still there, followed by at most four added entries. -/
def AppendsOnly (before after : ContactBuffer) : Prop :=
  ∃ added : List Slot,
    after.entries = before.entries ++ added ∧ added.length ≤ GU_MANIFOLD_CACHE_SIZE

/-! ## Properties -/

theorem generationLoop_eq (verts : List Vec3) (T : PsMatTransformV) (M : Mat33) (cd : PxReal)
    (N : Vec3) : ∀ (n i : Nat) (acc : List PersistentContact), i + n ≤ verts.length →
      generationLoop verts T M cd N n i acc =
        acc ++ ((verts.drop i).take n).filterMap (loopStep T M cd N) := by
  intro n
  induction n with
  | zero => intro i acc _; simp [generationLoop]
  | succ n ih =>
    intro i acc h
    have hi : i < verts.length := by omega
    have hd : verts.drop i = verts[i] :: verts.drop (i + 1) := List.drop_eq_getElem_cons hi
    have hg : verts.getD i ⟨0, 0, 0⟩ = verts[i] := by
      simp [List.getD_eq_getElem?_getD, List.getElem?_eq_getElem hi]
    rw [generationLoop]
    simp only [hg, hd, List.take_succ_cons, List.filterMap_cons, loopStep]
    by_cases hc : cd > V3GetX (T.transform verts[i])
    · simp only [hc, if_true]
      rw [ih (i + 1) _ (by omega)]
      simp
    · simp only [hc, if_false]
      rw [ih (i + 1) _ (by omega)]

theorem pcm_regenerated (ext : Externals) (a : ContactMethodArgs)
    (h : (decide ((refreshed ext a).mNumContacts ≠ a.manifold.mNumContacts) ||
      invalidated ext a) = true) :
    pcmContactPlaneConvex ext a =
      ⟨ext.addBatchManifoldContacts (clearedManifold ext a) (candidates a),
        ext.addManifoldContactsToContactBuffer
          (ext.addBatchManifoldContacts (clearedManifold ext a) (candidates a))
          (a.contactBuffer.stage ext (candidates a).length) (worldNormal a) a.transform0,
        decide ((ext.addBatchManifoldContacts (clearedManifold ext a) (candidates a)).mNumContacts
          > 0),
        some (clearedManifold ext a, candidates a)⟩ := by
  unfold pcmContactPlaneConvex
  simp only [refreshed, invalidated, relativeTransform, loadTransformA] at h
  simp only [loadTransformA]
  rw [if_pos h]
  rfl

theorem pcm_cached (ext : Externals) (a : ContactMethodArgs)
    (h : (decide ((refreshed ext a).mNumContacts ≠ a.manifold.mNumContacts) ||
      invalidated ext a) = false) :
    pcmContactPlaneConvex ext a =
      ⟨refreshed ext a,
        ext.addManifoldContactsToContactBuffer (refreshed ext a) a.contactBuffer (worldNormal a)
          a.transform0,
        decide ((refreshed ext a).mNumContacts > 0), none⟩ := by
  unfold pcmContactPlaneConvex
  simp only [refreshed, invalidated, relativeTransform, loadTransformA] at h
  simp only [loadTransformA]
  rw [if_neg (by rw [h]; exact Bool.false_ne_true)]
  rfl

/-- A recorded batch call pins down the branch, the cleared manifold and the
candidate list. -/
theorem batchCall_some (ext : Externals) (a : ContactMethodArgs)
    (cleared : PersistentContactManifold) (batch : List PersistentContact)
    (h : (pcmContactPlaneConvex ext a).batchCall = some (cleared, batch)) :
    (decide ((refreshed ext a).mNumContacts ≠ a.manifold.mNumContacts) ||
      invalidated ext a) = true ∧ cleared = clearedManifold ext a ∧ batch = candidates a := by
  cases hc : (decide ((refreshed ext a).mNumContacts ≠ a.manifold.mNumContacts) ||
      invalidated ext a) with
  | false => rw [pcm_cached ext a hc] at h; simp at h
  | true =>
    rw [pcm_regenerated ext a hc] at h
    simp only [Option.some.injEq, Prod.mk.injEq] at h
    exact ⟨rfl, h.1.symm, h.2.symm⟩

theorem filterMap_ite_eq_map_filter {α β : Type} (p : α → Prop) [DecidablePred p] (g : α → β)
    (l : List α) :
    l.filterMap (fun v => if p v then some (g v) else none) =
      (l.filter (fun v => decide (p v))).map g := by
  induction l with
  | nil => rfl
  | cons x xs ih =>
    by_cases hx : p x
    · simp [List.filterMap_cons, List.filter_cons, hx, ih]
    · simp [List.filterMap_cons, List.filter_cons, hx, ih]

theorem loopStep_eq (a : ContactMethodArgs) (v : Vec3) :
    loopStep ⟨(PsMatTransformV.ofTransform (relativeTransform a)).p,
        M33MulM33 (PsMatTransformV.ofTransform (relativeTransform a)).rot (vertex2Shape a)⟩
      (vertex2Shape a) a.contactDistance V3UnitX v =
    if signedDistance a v < a.contactDistance then some (candidateOf a v) else none := by
  have hp : (⟨(PsMatTransformV.ofTransform (relativeTransform a)).p,
        M33MulM33 (PsMatTransformV.ofTransform (relativeTransform a)).rot (vertex2Shape a)⟩ :
        PsMatTransformV).transform v = planeSpacePosition a v := rfl
  unfold loopStep
  rw [hp]
  have hx : V3GetX (planeSpacePosition a v) = signedDistance a v := rfl
  rw [hx]
  by_cases hc : signedDistance a v < a.contactDistance
  · have hc2 : a.contactDistance > signedDistance a v := hc
    rw [if_pos hc2, if_pos hc]
    simp [candidateOf, V3NegScaleSub, V3Sub, V3Scale, V3UnitX, V4SetW, Vec4V_From_Vec3V,
      signedDistance]
  · have hc2 : ¬ a.contactDistance > signedDistance a v := hc
    rw [if_neg hc2, if_neg hc]

theorem candidates_eq (a : ContactMethodArgs) (hwf : a.shape1.hullData.WellFormed) :
    candidates a = (a.shape1.hullData.hullVertices.filter
      (fun v => decide (signedDistance a v < a.contactDistance))).map (candidateOf a) := by
  unfold candidates
  rw [generationLoop_eq _ _ _ _ _ _ _ _ (by rw [hwf.1]; omega)]
  rw [← hwf.1, List.drop_zero, List.take_length, List.nil_append]
  rw [← filterMap_ite_eq_map_filter]
  congr 1
  funext v
  exact loopStep_eq a v

/-- C1: when the routine regenerates, the candidate list handed to
addBatchManifoldContacts holds, in vertex-index order, one candidate for each
hull vertex whose signed distance (the x coordinate of
aToB.p + (aToB.rot * vertex2Shape) * v) is strictly below contactDistance, and
nothing else; a hull without vertices yields no candidate. -/
theorem regeneration_candidates_are_vertices_below_contact_distance
    (ext : Externals) (a : ContactMethodArgs) (hwf : a.shape1.hullData.WellFormed)
    (cleared : PersistentContactManifold) (batch : List PersistentContact)
    (h : (pcmContactPlaneConvex ext a).batchCall = some (cleared, batch)) :
    batch = (a.shape1.hullData.hullVertices.filter
        (fun v => decide (signedDistance a v < a.contactDistance))).map (candidateOf a) ∧
      (a.shape1.hullData.mNbHullVertices = 0 → batch = []) := by
  obtain ⟨_, _, hb⟩ := batchCall_some ext a cleared batch h
  have hc := candidates_eq a hwf
  refine ⟨hb.trans hc, fun h0 => ?_⟩
  have hl : a.shape1.hullData.hullVertices = [] :=
    List.length_eq_zero.mp (hwf.1.trans h0)
  rw [hb, hc, hl]
  rfl

theorem regeneration_candidates_witness :
    [(⟨⟨0, 0, 0⟩, ⟨0, 0, 0⟩, ⟨1, 0, 0, 0⟩⟩ : PersistentContact),
      ⟨⟨0, 0, 1⟩, ⟨0, 0, 1⟩, ⟨1, 0, 0, 0⟩⟩, ⟨⟨0, 1, 0⟩, ⟨0, 1, 0⟩, ⟨1, 0, 0, 0⟩⟩,
      ⟨⟨0, 1, 1⟩, ⟨0, 1, 1⟩, ⟨1, 0, 0, 0⟩⟩] =
      (cubeArgs.shape1.hullData.hullVertices.filter
        (fun v => decide (signedDistance cubeArgs v < cubeArgs.contactDistance))).map
          (candidateOf cubeArgs) ∧
      (cubeArgs.shape1.hullData.mNbHullVertices = 0 →
        [(⟨⟨0, 0, 0⟩, ⟨0, 0, 0⟩, ⟨1, 0, 0, 0⟩⟩ : PersistentContact),
          ⟨⟨0, 0, 1⟩, ⟨0, 0, 1⟩, ⟨1, 0, 0, 0⟩⟩, ⟨⟨0, 1, 0⟩, ⟨0, 1, 0⟩, ⟨1, 0, 0, 0⟩⟩,
          ⟨⟨0, 1, 1⟩, ⟨0, 1, 1⟩, ⟨1, 0, 0, 0⟩⟩] = []) :=
  regeneration_candidates_are_vertices_below_contact_distance Contract.externals cubeArgs
    ⟨by decide, by decide⟩ ⟨[], 0, transformIdentity⟩ _ (by decide!)

/-- C2: every candidate of the full-generation loop, paired with the hull vertex
it comes from, has pointOnA equal to vertex2Shape * v, has pointOnB equal to
the plane-space position of the vertex with x set to 0 (same y and z), carries
the unit X axis as normal and the signed distance of the vertex as
separation. -/
theorem candidate_of_vertex_has_projected_point_unit_normal_signed_distance
    (ext : Externals) (a : ContactMethodArgs) (hwf : a.shape1.hullData.WellFormed)
    (cleared : PersistentContactManifold) (batch : List PersistentContact)
    (h : (pcmContactPlaneConvex ext a).batchCall = some (cleared, batch)) :
    List.Forall₂
      (fun v c =>
        c.mLocalPointA = M33MulV3 (vertex2Shape a) v ∧
        c.mLocalPointB.x = 0 ∧
        c.mLocalPointB.y = (planeSpacePosition a v).y ∧
        c.mLocalPointB.z = (planeSpacePosition a v).z ∧
        Vec3V_From_Vec4V c.mLocalNormalPen = ⟨1, 0, 0⟩ ∧
        V4GetW c.mLocalNormalPen = signedDistance a v)
      (a.shape1.hullData.hullVertices.filter
        (fun v => decide (signedDistance a v < a.contactDistance)))
      batch := by
  obtain ⟨_, _, hb⟩ := batchCall_some ext a cleared batch h
  rw [hb, candidates_eq a hwf, List.forall₂_map_right_iff, List.forall₂_same]
  intro v _
  exact ⟨rfl, rfl, rfl, rfl, rfl, rfl⟩

theorem candidate_of_vertex_witness :
    List.Forall₂
      (fun v c =>
        c.mLocalPointA = M33MulV3 (vertex2Shape cubeArgs) v ∧
        c.mLocalPointB.x = 0 ∧
        c.mLocalPointB.y = (planeSpacePosition cubeArgs v).y ∧
        c.mLocalPointB.z = (planeSpacePosition cubeArgs v).z ∧
        Vec3V_From_Vec4V c.mLocalNormalPen = ⟨1, 0, 0⟩ ∧
        V4GetW c.mLocalNormalPen = signedDistance cubeArgs v)
      (cubeArgs.shape1.hullData.hullVertices.filter
        (fun v => decide (signedDistance cubeArgs v < cubeArgs.contactDistance)))
      [(⟨⟨0, 0, 0⟩, ⟨0, 0, 0⟩, ⟨1, 0, 0, 0⟩⟩ : PersistentContact),
        ⟨⟨0, 0, 1⟩, ⟨0, 0, 1⟩, ⟨1, 0, 0, 0⟩⟩, ⟨⟨0, 1, 0⟩, ⟨0, 1, 0⟩, ⟨1, 0, 0, 0⟩⟩,
        ⟨⟨0, 1, 1⟩, ⟨0, 1, 1⟩, ⟨1, 0, 0, 0⟩⟩] :=
  candidate_of_vertex_has_projected_point_unit_normal_signed_distance Contract.externals cubeArgs
    ⟨by decide, by decide⟩ ⟨[], 0, transformIdentity⟩ _ (by decide!)

/-- C3: whenever the contact count after refreshContactPoints differs from the
count before it, the regeneration branch runs, whatever the invalidation test
answers: the count is zeroed, the candidates of the hull are generated and
handed to addBatchManifoldContacts, and its result is the new manifold. -/
theorem lost_contact_forces_regeneration (ext : Externals) (a : ContactMethodArgs)
    (h : (refreshed ext a).mNumContacts ≠ a.manifold.mNumContacts) :
    (pcmContactPlaneConvex ext a).batchCall = some (clearedManifold ext a, candidates a) ∧
      (clearedManifold ext a).mNumContacts = 0 ∧
      (pcmContactPlaneConvex ext a).manifold =
        ext.addBatchManifoldContacts (clearedManifold ext a) (candidates a) := by
  have hc : (decide ((refreshed ext a).mNumContacts ≠ a.manifold.mNumContacts) ||
      invalidated ext a) = true := by
    rw [decide_eq_true h, Bool.true_or]
  rw [pcm_regenerated ext a hc]
  exact ⟨rfl, rfl, rfl⟩

theorem extractBest_perm (score : PersistentContact → PxReal) :
    ∀ (l : List PersistentContact) (a : PersistentContact),
      List.Perm ((Contract.extractBest score a l).1 :: (Contract.extractBest score a l).2)
        (a :: l) := by
  intro l
  induction l with
  | nil => intro a; simp [Contract.extractBest]
  | cons b rest ih =>
    intro a
    rw [Contract.extractBest]
    by_cases hc : score a ≥ score (Contract.extractBest score b rest).1
    · simp only [hc, if_true]
      exact List.Perm.refl _
    · simp only [hc, if_false]
      exact (List.Perm.swap _ _ _).trans ((ih b).cons a)

theorem reduceLoop_length_le (score : List PersistentContact → PersistentContact → PxReal) :
    ∀ (n : Nat) (selected remaining : List PersistentContact),
      (Contract.reduceLoop score n selected remaining).length ≤ selected.length + n := by
  intro n
  induction n with
  | zero => intro selected remaining; simp [Contract.reduceLoop]
  | succ n ih =>
    intro selected remaining
    cases remaining with
    | nil => simp [Contract.reduceLoop]
    | cons c rest =>
      rw [Contract.reduceLoop]
      refine (ih _ _).trans ?_
      simp only [List.length_append, List.length_singleton]
      omega

theorem reduceLoop_perm (score : List PersistentContact → PersistentContact → PxReal) :
    ∀ (n : Nat) (selected remaining : List PersistentContact), remaining.length ≤ n →
      List.Perm (Contract.reduceLoop score n selected remaining) (selected ++ remaining) := by
  intro n
  induction n with
  | zero =>
    intro selected remaining h
    have : remaining = [] := List.length_eq_zero.mp (Nat.le_zero.mp h)
    subst this
    simp [Contract.reduceLoop]
  | succ n ih =>
    intro selected remaining h
    cases remaining with
    | nil => simp [Contract.reduceLoop]
    | cons c rest =>
      rw [Contract.reduceLoop]
      have hp := extractBest_perm (score selected) rest c
      have hl : (Contract.extractBest (score selected) c rest).2.length ≤ n := by
        have := hp.length_eq
        simp only [List.length_cons] at this h
        omega
      refine (ih _ _ hl).trans ?_
      rw [List.append_assoc]
      exact List.Perm.append_left selected (by simpa using hp)

theorem reduceLoop_mem (score : List PersistentContact → PersistentContact → PxReal) :
    ∀ (n : Nat) (selected remaining : List PersistentContact) (x : PersistentContact),
      x ∈ Contract.reduceLoop score n selected remaining → x ∈ selected ∨ x ∈ remaining := by
  intro n
  induction n with
  | zero => intro selected remaining x hx; left; simpa [Contract.reduceLoop] using hx
  | succ n ih =>
    intro selected remaining x hx
    cases remaining with
    | nil => left; simpa [Contract.reduceLoop] using hx
    | cons c rest =>
      rw [Contract.reduceLoop] at hx
      have hp := extractBest_perm (score selected) rest c
      rcases ih _ _ x hx with h1 | h2
      · rcases List.mem_append.mp h1 with h3 | h4
        · exact Or.inl h3
        · right
          have : x = (Contract.extractBest (score selected) c rest).1 := by simpa using h4
          exact hp.subset (this ▸ List.mem_cons_self _ _)
      · right
        exact hp.subset (List.mem_cons_of_mem _ h2)

theorem reduceBatchContacts_length_le (l : List PersistentContact) :
    (Contract.reduceBatchContacts l).length ≤ GU_MANIFOLD_CACHE_SIZE := by
  have := reduceLoop_length_le Contract.reduceScore GU_MANIFOLD_CACHE_SIZE [] l
  simpa [Contract.reduceBatchContacts] using this

theorem reduceBatchContacts_perm (l : List PersistentContact)
    (h : l.length ≤ GU_MANIFOLD_CACHE_SIZE) : List.Perm (Contract.reduceBatchContacts l) l := by
  have := reduceLoop_perm Contract.reduceScore GU_MANIFOLD_CACHE_SIZE [] l h
  simpa [Contract.reduceBatchContacts] using this

theorem reduceBatchContacts_mem (l : List PersistentContact) (x : PersistentContact)
    (h : x ∈ Contract.reduceBatchContacts l) : x ∈ l := by
  rcases reduceLoop_mem Contract.reduceScore GU_MANIFOLD_CACHE_SIZE [] l x h with h1 | h2
  · simp at h1
  · exact h2

theorem addBatch_contacts (m : PersistentContactManifold) (l : List PersistentContact) :
    (Contract.addBatchManifoldContacts m l).contacts = Contract.reduceBatchContacts l := by
  simp [Contract.addBatchManifoldContacts, PersistentContactManifold.contacts]

theorem refresh_numContacts_le (m : PersistentContactManifold) (t : PsTransformV)
    (b d : PxReal) :
    (Contract.refreshContactPoints m t b d).mNumContacts ≤ m.mNumContacts := by
  simp only [Contract.refreshContactPoints]
  refine (List.length_filterMap_le _ _).trans ?_
  simp [PersistentContactManifold.contacts]

theorem refresh_contacts_length (m : PersistentContactManifold) (t : PsTransformV)
    (b d : PxReal) :
    (Contract.refreshContactPoints m t b d).contacts.length =
      (Contract.refreshContactPoints m t b d).mNumContacts := by
  simp [Contract.refreshContactPoints, PersistentContactManifold.contacts]

theorem pcm_contacts_length_le (a : ContactMethodArgs)
    (h : a.manifold.mNumContacts ≤ GU_MANIFOLD_CACHE_SIZE) :
    (pcmContactPlaneConvex Contract.externals a).manifold.getNumContacts ≤
        GU_MANIFOLD_CACHE_SIZE ∧
      (pcmContactPlaneConvex Contract.externals a).manifold.contacts.length ≤
        GU_MANIFOLD_CACHE_SIZE := by
  cases hc : (decide ((refreshed Contract.externals a).mNumContacts ≠ a.manifold.mNumContacts) ||
      invalidated Contract.externals a) with
  | false =>
    rw [pcm_cached _ a hc]
    have hle : (refreshed Contract.externals a).mNumContacts ≤ GU_MANIFOLD_CACHE_SIZE :=
      (refresh_numContacts_le _ _ _ _).trans h
    refine ⟨hle, ?_⟩
    have := refresh_contacts_length a.manifold (relativeTransform a)
      (Contract.externals.CalculatePCMConvexMargin a.shape1.hullData a.shape1.scale.scale *
        (1 / 5)) a.contactDistance
    show (refreshed Contract.externals a).contacts.length ≤ GU_MANIFOLD_CACHE_SIZE
    unfold refreshed at hle ⊢
    exact this ▸ hle
  | true =>
    rw [pcm_regenerated _ a hc]
    refine ⟨reduceBatchContacts_length_le _, ?_⟩
    show (Contract.addBatchManifoldContacts _ _).contacts.length ≤ _
    rw [addBatch_contacts]
    exact reduceBatchContacts_length_le _

theorem lost_contact_forces_regeneration_witness :
    invalidated Contract.externals slidArgs = false ∧
    ((pcmContactPlaneConvex Contract.externals slidArgs).batchCall =
        some (clearedManifold Contract.externals slidArgs, candidates slidArgs) ∧
      (clearedManifold Contract.externals slidArgs).mNumContacts = 0 ∧
      (pcmContactPlaneConvex Contract.externals slidArgs).manifold =
        Contract.externals.addBatchManifoldContacts (clearedManifold Contract.externals slidArgs)
          (candidates slidArgs)) :=
  ⟨by decide!, lost_contact_forces_regeneration Contract.externals slidArgs (by decide!)⟩

/-- C4: whenever the regeneration branch runs, the manifold handed to
addBatchManifoldContacts has a contact count of zero, hence no live contact,
and its stored relative transform is the current convex-to-plane transform
(the inverse of the plane transform composed with the convex transform); the
manifold of the call is what the batch add makes of it. With the batch add of
the contract the stored transform is still the current one afterwards and
every live contact is one of the new candidates. -/
theorem regeneration_clears_contacts_and_rebases_transform
    (ext : Externals) (a : ContactMethodArgs)
    (cleared : PersistentContactManifold) (batch : List PersistentContact)
    (h : (pcmContactPlaneConvex ext a).batchCall = some (cleared, batch)) :
    (cleared.mNumContacts = 0 ∧ cleared.contacts = [] ∧
      cleared.mRelativeTransform = a.transform0.transformInv a.transform1 ∧
      (pcmContactPlaneConvex ext a).manifold = ext.addBatchManifoldContacts cleared batch) ∧
    (ext.addBatchManifoldContacts = Contract.addBatchManifoldContacts →
      (pcmContactPlaneConvex ext a).manifold.mRelativeTransform =
          a.transform0.transformInv a.transform1 ∧
        ∀ c ∈ (pcmContactPlaneConvex ext a).manifold.contacts, c ∈ batch) := by
  obtain ⟨hc, h1, h2⟩ := batchCall_some ext a cleared batch h
  have hm : (pcmContactPlaneConvex ext a).manifold =
      ext.addBatchManifoldContacts cleared batch := by
    rw [pcm_regenerated ext a hc, h1, h2]
  subst h1
  refine ⟨⟨rfl, ?_, rfl, hm⟩, fun he => ?_⟩
  · simp [PersistentContactManifold.contacts, clearedManifold]
  · rw [hm, he]
    refine ⟨rfl, fun c hcm => ?_⟩
    rw [addBatch_contacts] at hcm
    exact reduceBatchContacts_mem _ _ hcm

theorem regeneration_clears_contacts_and_rebases_transform_witness :
    ((0 : Nat) = 0 ∧ (⟨[], 0, transformIdentity⟩ : PersistentContactManifold).contacts = [] ∧
      transformIdentity = cubeArgs.transform0.transformInv cubeArgs.transform1 ∧
      (pcmContactPlaneConvex Contract.externals cubeArgs).manifold =
        Contract.externals.addBatchManifoldContacts ⟨[], 0, transformIdentity⟩
          (candidates cubeArgs)) ∧
    (Contract.externals.addBatchManifoldContacts = Contract.addBatchManifoldContacts →
      (pcmContactPlaneConvex Contract.externals cubeArgs).manifold.mRelativeTransform =
          cubeArgs.transform0.transformInv cubeArgs.transform1 ∧
        ∀ c ∈ (pcmContactPlaneConvex Contract.externals cubeArgs).manifold.contacts,
          c ∈ candidates cubeArgs) :=
  regeneration_clears_contacts_and_rebases_transform Contract.externals cubeArgs
    ⟨[], 0, transformIdentity⟩ (candidates cubeArgs) (by decide!)

/-- C5: after an invocation on a manifold within its capacity the manifold holds
at most four contacts, whatever the number of hull vertices and of candidates;
and when full generation produced fewer candidates than the capacity, the live
contacts are exactly those candidates. -/
theorem manifold_within_capacity_and_small_batches_kept (a : ContactMethodArgs)
    (h : a.manifold.mNumContacts ≤ GU_MANIFOLD_CACHE_SIZE) :
    (pcmContactPlaneConvex Contract.externals a).manifold.getNumContacts ≤
        GU_MANIFOLD_CACHE_SIZE ∧
      (pcmContactPlaneConvex Contract.externals a).manifold.contacts.length ≤
        GU_MANIFOLD_CACHE_SIZE ∧
      ∀ (cleared : PersistentContactManifold) (batch : List PersistentContact),
        (pcmContactPlaneConvex Contract.externals a).batchCall = some (cleared, batch) →
        batch.length < GU_MANIFOLD_CACHE_SIZE →
        List.Perm (pcmContactPlaneConvex Contract.externals a).manifold.contacts batch := by
  refine ⟨(pcm_contacts_length_le a h).1, (pcm_contacts_length_le a h).2, ?_⟩
  intro cleared batch hb hlt
  obtain ⟨hc, _, hbatch⟩ := batchCall_some _ a cleared batch hb
  rw [pcm_regenerated _ a hc]
  show List.Perm (Contract.addBatchManifoldContacts _ _).contacts batch
  rw [addBatch_contacts, hbatch]
  exact reduceBatchContacts_perm _ (by rw [← hbatch]; exact Nat.le_of_lt hlt)

theorem manifold_within_capacity_witness :
    (candidates deepCubeArgs).length = 8 ∧
    ((pcmContactPlaneConvex Contract.externals deepCubeArgs).manifold.getNumContacts ≤
        GU_MANIFOLD_CACHE_SIZE ∧
      (pcmContactPlaneConvex Contract.externals deepCubeArgs).manifold.contacts.length ≤
        GU_MANIFOLD_CACHE_SIZE ∧
      ∀ (cleared : PersistentContactManifold) (batch : List PersistentContact),
        (pcmContactPlaneConvex Contract.externals deepCubeArgs).batchCall =
          some (cleared, batch) →
        batch.length < GU_MANIFOLD_CACHE_SIZE →
        List.Perm (pcmContactPlaneConvex Contract.externals deepCubeArgs).manifold.contacts
          batch) ∧
    List.Perm (pcmContactPlaneConvex Contract.externals wedgeArgs).manifold.contacts
      [⟨⟨0, 0, 0⟩, ⟨0, 0, 0⟩, ⟨1, 0, 0, 0⟩⟩, ⟨⟨0, 1, 0⟩, ⟨0, 1, 0⟩, ⟨1, 0, 0, 0⟩⟩] :=
  ⟨by decide!,
    manifold_within_capacity_and_small_batches_kept deepCubeArgs (by decide),
    (manifold_within_capacity_and_small_batches_kept wedgeArgs (by decide)).2.2
      ⟨[], 0, transformIdentity⟩ _ (by decide!) (by decide)⟩

theorem stage_count (ext : Externals) (b : ContactBuffer) (n : Nat) :
    (b.stage ext n).count = b.count := rfl

theorem addToBuffer_count (m : PersistentContactManifold) (b : ContactBuffer) (normal : Vec3)
    (t : PsTransformV) :
    (Contract.addManifoldContactsToContactBuffer m b normal t).count =
      b.count + m.contacts.length := by
  simp [Contract.addManifoldContactsToContactBuffer]

theorem pcm_count (a : ContactMethodArgs) :
    (pcmContactPlaneConvex Contract.externals a).contactBuffer.count =
      a.contactBuffer.count +
        (pcmContactPlaneConvex Contract.externals a).manifold.getNumContacts := by
  cases hc : (decide ((refreshed Contract.externals a).mNumContacts ≠ a.manifold.mNumContacts) ||
      invalidated Contract.externals a) with
  | false =>
    rw [pcm_cached _ a hc]
    show (Contract.addManifoldContactsToContactBuffer _ _ _ _).count = _
    rw [addToBuffer_count]
    exact congrArg (a.contactBuffer.count + ·) (refresh_contacts_length _ _ _ _)
  | true =>
    rw [pcm_regenerated _ a hc]
    show (Contract.addManifoldContactsToContactBuffer
      (Contract.addBatchManifoldContacts _ _) _ _ _).count = _
    rw [addToBuffer_count, addBatch_contacts, stage_count]
    rfl

theorem pcm_result (ext : Externals) (a : ContactMethodArgs) :
    (pcmContactPlaneConvex ext a).result =
      decide ((pcmContactPlaneConvex ext a).manifold.getNumContacts > 0) := by
  cases hc : (decide ((refreshed ext a).mNumContacts ≠ a.manifold.mNumContacts) ||
      invalidated ext a) with
  | false => rw [pcm_cached _ a hc]; rfl
  | true => rw [pcm_regenerated _ a hc]; rfl

/-- C6: the routine returns true exactly when the invocation emitted at least
one contact to the contact buffer (the number of entries in use grew); the
number emitted is the contact count of the manifold after the call, and on
both branches the result is computed as that count being positive. -/
theorem result_true_iff_contact_emitted (a : ContactMethodArgs) :
    ((pcmContactPlaneConvex Contract.externals a).result = true ↔
        a.contactBuffer.count < (pcmContactPlaneConvex Contract.externals a).contactBuffer.count) ∧
      (pcmContactPlaneConvex Contract.externals a).contactBuffer.count =
        a.contactBuffer.count +
          (pcmContactPlaneConvex Contract.externals a).manifold.getNumContacts ∧
      ∀ ext : Externals, (pcmContactPlaneConvex ext a).result =
        decide ((pcmContactPlaneConvex ext a).manifold.getNumContacts > 0) := by
  refine ⟨?_, pcm_count a, fun ext => pcm_result ext a⟩
  rw [pcm_result, pcm_count a, decide_eq_true_iff]
  omega

theorem fused_transform_eq (v : Vec3) (M : Mat33) (aToB : PsMatTransformV) :
    (⟨aToB.p, M33MulM33 aToB.rot M⟩ : PsMatTransformV).transform v =
      aToB.transform (M33MulV3 M v) := by
  simp only [PsMatTransformV.transform, M33MulM33, M33MulV3, V3Add, V3Scale, Vec3.mk.injEq]
  refine ⟨?_, ?_, ?_⟩ <;> ring

theorem generationLoop_forall (verts : List Vec3) (T : PsMatTransformV) (M : Mat33)
    (cd : PxReal) (N : Vec3) (P : PersistentContact → Prop)
    (hstep : ∀ v c, loopStep T M cd N v = some c → P c) :
    ∀ (n i : Nat) (acc : List PersistentContact), (∀ c ∈ acc, P c) →
      ∀ c ∈ generationLoop verts T M cd N n i acc, P c := by
  intro n
  induction n with
  | zero => intro i acc hacc c hc; exact hacc c (by simpa [generationLoop] using hc)
  | succ n ih =>
    intro i acc hacc c hc
    rw [generationLoop] at hc
    by_cases hcd : cd > V3GetX (T.transform (verts.getD i ⟨0, 0, 0⟩))
    · simp only [hcd, if_true] at hc
      refine ih (i + 1) _ ?_ c hc
      intro x hx
      rcases List.mem_append.mp hx with h1 | h2
      · exact hacc x h1
      · have hx2 : x = _ := List.mem_singleton.mp h2
        refine hstep (verts.getD i ⟨0, 0, 0⟩) x ?_
        rw [loopStep, if_pos hcd, hx2]
    · simp only [hcd, if_false] at hc
      exact ih (i + 1) acc hacc c hc

/-- C10: over exact arithmetic the fused transform of the generation loop agrees
with the two-step one: p + (rot * vertex2Shape) * v equals the relative
transform applied to vertex2Shape * v. Hence the separation of every
candidate is the x coordinate of its own pointOnA taken to plane space by the
current relative transform, and its pointOnB is that point with x set to 0. -/
theorem fused_vertex_transform_agrees_with_two_step :
    (∀ (v : Vec3) (vertex2Shape : Mat33) (aToB : PsMatTransformV),
      (⟨aToB.p, M33MulM33 aToB.rot vertex2Shape⟩ : PsMatTransformV).transform v =
        aToB.transform (M33MulV3 vertex2Shape v)) ∧
    (∀ (ext : Externals) (a : ContactMethodArgs) (cleared : PersistentContactManifold)
      (batch : List PersistentContact),
      (pcmContactPlaneConvex ext a).batchCall = some (cleared, batch) →
      ∀ c ∈ batch,
        V4GetW c.mLocalNormalPen =
          ((PsMatTransformV.ofTransform (relativeTransform a)).transform c.mLocalPointA).x ∧
        c.mLocalPointB =
          ⟨0, ((PsMatTransformV.ofTransform (relativeTransform a)).transform c.mLocalPointA).y,
            ((PsMatTransformV.ofTransform (relativeTransform a)).transform c.mLocalPointA).z⟩) := by
  refine ⟨fused_transform_eq, ?_⟩
  intro ext a cleared batch h c hc
  obtain ⟨_, _, hb⟩ := batchCall_some ext a cleared batch h
  rw [hb] at hc
  refine generationLoop_forall _ _ _ _ _
    (fun c => V4GetW c.mLocalNormalPen =
        ((PsMatTransformV.ofTransform (relativeTransform a)).transform c.mLocalPointA).x ∧
      c.mLocalPointB =
        ⟨0, ((PsMatTransformV.ofTransform (relativeTransform a)).transform c.mLocalPointA).y,
          ((PsMatTransformV.ofTransform (relativeTransform a)).transform c.mLocalPointA).z⟩)
    ?_ _ _ _ (by simp) c hc
  intro v x hx
  rw [loopStep] at hx
  split_ifs at hx with hcd
  have hx2 := (Option.some.inj hx).symm
  subst hx2
  simp only [fused_transform_eq]
  simp [V3NegScaleSub, V3Sub, V3Scale, V3UnitX, V4SetW, V4GetW, Vec4V_From_Vec3V, V3GetX]

theorem fused_vertex_transform_witness :
    ∀ c ∈ candidates deepCubeArgs,
      V4GetW c.mLocalNormalPen =
        ((PsMatTransformV.ofTransform (relativeTransform deepCubeArgs)).transform
          c.mLocalPointA).x ∧
      c.mLocalPointB =
        ⟨0, ((PsMatTransformV.ofTransform (relativeTransform deepCubeArgs)).transform
            c.mLocalPointA).y,
          ((PsMatTransformV.ofTransform (relativeTransform deepCubeArgs)).transform
            c.mLocalPointA).z⟩ :=
  fused_vertex_transform_agrees_with_two_step.2 Contract.externals deepCubeArgs
    ⟨[], 0, transformIdentity⟩ (candidates deepCubeArgs) (by decide!)

theorem stageSlots_zero (cp pc : Nat) : ∀ (l : List Slot) (j : Nat),
    stageSlots cp pc 0 j l = l := by
  intro l
  induction l with
  | nil => intro j; rfl
  | cons s rest ih => intro j; simp [stageSlots, ih]

theorem stageSlots_length (cp pc n : Nat) : ∀ (l : List Slot) (j : Nat),
    (stageSlots cp pc n j l).length = l.length := by
  intro l
  induction l with
  | nil => intro j; rfl
  | cons s rest ih => intro j; simp [stageSlots, ih]

/-- Whatever the two record sizes, as long as a `PersistentContact` record is not
empty, staging at least one candidate overwrites the first element of the
array. -/
theorem stageSlots_first (cp pc n : Nat) (hpc : 0 < pc) (hn : 0 < n) (s : Slot)
    (rest : List Slot) : (stageSlots cp pc n 0 (s :: rest)).head? = some Slot.staged := by
  have h : 0 * cp < n * pc := by
    rw [Nat.zero_mul]
    exact Nat.mul_pos hn hpc
  rw [stageSlots, if_pos h]
  rfl

theorem addToBuffer_entries (m : PersistentContactManifold) (b : ContactBuffer) (normal : Vec3)
    (t : PsTransformV) (hb : b.count ≤ b.contacts.length) :
    (Contract.addManifoldContactsToContactBuffer m b normal t).entries =
      b.entries ++ m.contacts.map (fun p => Slot.point (Contract.worldContact normal t p)) := by
  simp only [Contract.addManifoldContactsToContactBuffer, ContactBuffer.entries]
  rw [List.take_left']
  simp [List.length_take, hb]

theorem stage_entries (ext : Externals) (b : ContactBuffer) (n : Nat)
    (h : b.count = 0 ∨ n = 0) : (b.stage ext n).entries = b.entries := by
  rcases h with h | h
  · simp [ContactBuffer.entries, ContactBuffer.stage, h]
  · subst h
    simp [ContactBuffer.entries, ContactBuffer.stage, stageSlots_zero]

/-- C7, as amended: when the contact buffer is empty at entry, or the call stages
no candidate (cached branch, or a regeneration that finds no vertex below
contactDistance), every entry in use before the call is unchanged after it and
the call adds between 0 and 4 entries after them, one for each live contact of
the manifold. -/
theorem buffer_appended_when_no_candidate_staged_over_entries (a : ContactMethodArgs)
    (hb : a.contactBuffer.count ≤ a.contactBuffer.contacts.length)
    (hm : a.manifold.mNumContacts ≤ GU_MANIFOLD_CACHE_SIZE)
    (h : a.contactBuffer.count = 0 ∨
      (pcmContactPlaneConvex Contract.externals a).batchCall = none ∨
      ∃ cleared, (pcmContactPlaneConvex Contract.externals a).batchCall = some (cleared, [])) :
    (pcmContactPlaneConvex Contract.externals a).contactBuffer.entries =
        a.contactBuffer.entries ++
          (pcmContactPlaneConvex Contract.externals a).manifold.contacts.map
            (fun p => Slot.point (Contract.worldContact (worldNormal a) a.transform0 p)) ∧
      (pcmContactPlaneConvex Contract.externals a).manifold.contacts.length ≤
        GU_MANIFOLD_CACHE_SIZE ∧
      AppendsOnly a.contactBuffer (pcmContactPlaneConvex Contract.externals a).contactBuffer := by
  have hlen := (pcm_contacts_length_le a hm).2
  have key : (pcmContactPlaneConvex Contract.externals a).contactBuffer.entries =
        a.contactBuffer.entries ++
          (pcmContactPlaneConvex Contract.externals a).manifold.contacts.map
            (fun p => Slot.point (Contract.worldContact (worldNormal a) a.transform0 p)) := by
    cases hc : (decide ((refreshed Contract.externals a).mNumContacts ≠
        a.manifold.mNumContacts) || invalidated Contract.externals a) with
    | false =>
      rw [pcm_cached _ a hc]
      exact addToBuffer_entries _ _ _ _ hb
    | true =>
      have hs : (a.contactBuffer.stage Contract.externals (candidates a).length).entries =
          a.contactBuffer.entries := by
        apply stage_entries
        rcases h with h | h | ⟨cleared, h⟩
        · exact Or.inl h
        · rw [pcm_regenerated _ a hc] at h
          simp at h
        · right
          rw [pcm_regenerated _ a hc] at h
          simp only [Option.some.injEq, Prod.mk.injEq] at h
          rw [h.2]
          rfl
      rw [pcm_regenerated _ a hc]
      have hb2 : (a.contactBuffer.stage Contract.externals (candidates a).length).count ≤
          (a.contactBuffer.stage Contract.externals (candidates a).length).contacts.length := by
        simp only [ContactBuffer.stage, stageSlots_length]
        exact hb
      have := addToBuffer_entries
        (Contract.addBatchManifoldContacts (clearedManifold Contract.externals a) (candidates a))
        (a.contactBuffer.stage Contract.externals (candidates a).length) (worldNormal a)
        a.transform0 hb2
      rw [hs] at this
      exact this
  exact ⟨key, hlen, ⟨_, key, by simpa using hlen⟩⟩

theorem buffer_appended_witness :
    ((pcmContactPlaneConvex Contract.externals cubeArgs).contactBuffer.entries =
        cubeArgs.contactBuffer.entries ++
          (pcmContactPlaneConvex Contract.externals cubeArgs).manifold.contacts.map
            (fun p => Slot.point
              (Contract.worldContact (worldNormal cubeArgs) cubeArgs.transform0 p)) ∧
      (pcmContactPlaneConvex Contract.externals cubeArgs).manifold.contacts.length ≤
        GU_MANIFOLD_CACHE_SIZE ∧
      AppendsOnly cubeArgs.contactBuffer
        (pcmContactPlaneConvex Contract.externals cubeArgs).contactBuffer) ∧
    (restingAgainArgs.contactBuffer.entries = [Slot.point ⟨⟨-1, 0, 0⟩, 0, ⟨7, 7, 7⟩⟩] ∧
      (pcmContactPlaneConvex Contract.externals restingAgainArgs).batchCall = none ∧
      (pcmContactPlaneConvex Contract.externals restingAgainArgs).contactBuffer.entries.length =
        5) ∧
    ((pcmContactPlaneConvex Contract.externals restingAgainArgs).contactBuffer.entries =
        restingAgainArgs.contactBuffer.entries ++
          (pcmContactPlaneConvex Contract.externals restingAgainArgs).manifold.contacts.map
            (fun p => Slot.point
              (Contract.worldContact (worldNormal restingAgainArgs)
                restingAgainArgs.transform0 p)) ∧
      (pcmContactPlaneConvex Contract.externals restingAgainArgs).manifold.contacts.length ≤
        GU_MANIFOLD_CACHE_SIZE ∧
      AppendsOnly restingAgainArgs.contactBuffer
        (pcmContactPlaneConvex Contract.externals restingAgainArgs).contactBuffer) ∧
    (separatedBusyArgs.contactBuffer.entries = [Slot.point ⟨⟨-1, 0, 0⟩, 0, ⟨7, 7, 7⟩⟩] ∧
      (pcmContactPlaneConvex Contract.externals separatedBusyArgs).batchCall.isSome = true ∧
      (pcmContactPlaneConvex Contract.externals separatedBusyArgs).contactBuffer.entries =
        [Slot.point ⟨⟨-1, 0, 0⟩, 0, ⟨7, 7, 7⟩⟩]) ∧
    ((pcmContactPlaneConvex Contract.externals separatedBusyArgs).contactBuffer.entries =
        separatedBusyArgs.contactBuffer.entries ++
          (pcmContactPlaneConvex Contract.externals separatedBusyArgs).manifold.contacts.map
            (fun p => Slot.point
              (Contract.worldContact (worldNormal separatedBusyArgs)
                separatedBusyArgs.transform0 p)) ∧
      (pcmContactPlaneConvex Contract.externals separatedBusyArgs).manifold.contacts.length ≤
        GU_MANIFOLD_CACHE_SIZE ∧
      AppendsOnly separatedBusyArgs.contactBuffer
        (pcmContactPlaneConvex Contract.externals separatedBusyArgs).contactBuffer) :=
  ⟨buffer_appended_when_no_candidate_staged_over_entries cubeArgs (by decide) (by decide)
      (Or.inl rfl),
    ⟨by decide!, by decide!, by decide!⟩,
    buffer_appended_when_no_candidate_staged_over_entries restingAgainArgs (by decide)
      (by decide!) (Or.inr (Or.inl (by decide!))),
    ⟨by decide!, by decide!, by decide!⟩,
    buffer_appended_when_no_candidate_staged_over_entries separatedBusyArgs (by decide)
      (by decide) (Or.inr (Or.inr ⟨⟨[], 0, ⟨quatIdentity, ⟨5, 0, 0⟩⟩⟩, by decide!⟩))⟩

/-- C7, counterexample: called for the resting cube with a contact buffer that
already holds one entry, the routine stages its four candidates in the storage
of the buffer, and the entry is no longer there after the call. -/
theorem busy_buffer_entry_is_overwritten :
    busyArgs.contactBuffer.entries = [Slot.point ⟨⟨-1, 0, 0⟩, 0, ⟨7, 7, 7⟩⟩] ∧
      (pcmContactPlaneConvex Contract.externals busyArgs).contactBuffer.entries.head? =
        some Slot.staged ∧
      ¬ AppendsOnly busyArgs.contactBuffer
        (pcmContactPlaneConvex Contract.externals busyArgs).contactBuffer := by
  have h1 : busyArgs.contactBuffer.entries = [Slot.point ⟨⟨-1, 0, 0⟩, 0, ⟨7, 7, 7⟩⟩] := by
    decide!
  have h2 : (pcmContactPlaneConvex Contract.externals busyArgs).contactBuffer.entries.head? =
      some Slot.staged := by decide!
  refine ⟨h1, h2, ?_⟩
  rintro ⟨added, hadd, _⟩
  rw [hadd, h1] at h2
  simp at h2

theorem vertex2Shape_identity (v : Vec3) :
    M33MulV3 (ConstructVertex2ShapeMatrix ⟨1, 1, 1⟩ quatIdentity) v = v := by
  simp [ConstructVertex2ShapeMatrix, QuatGetMat33V, M33Trnsps, M33MulM33, M33MulV3, V3Add,
    V3Scale, quatIdentity]

/-- C9: for the axis-aligned unit cube with identity scale, placed so that the
four vertices of one face are at signed distance 0 and the other four at
signed distance 1, and a contact distance in (0, 1], full generation produces
exactly four candidates, one for each face vertex in index order, each with
pointOnA the vertex, separation 0 and the unit X normal; the manifold then
holds exactly these four contacts and four entries are emitted. -/
theorem resting_unit_cube_yields_its_four_face_vertices (a : ContactMethodArgs)
    (face : Vec3 → Bool)
    (hscale : a.shape1.scale = ⟨⟨1, 1, 1⟩, quatIdentity⟩)
    (hverts : a.shape1.hullData.hullVertices = unitCube)
    (hcount : a.shape1.hullData.mNbHullVertices = 8)
    (hface : (unitCube.filter face).length = 4)
    (hdist : ∀ v ∈ unitCube, signedDistance a v = if face v then 0 else 1)
    (heps : 0 < a.contactDistance ∧ a.contactDistance ≤ 1)
    (cleared : PersistentContactManifold) (batch : List PersistentContact)
    (h : (pcmContactPlaneConvex Contract.externals a).batchCall = some (cleared, batch)) :
    batch = (unitCube.filter face).map
        (fun v => ⟨v, ⟨0, (planeSpacePosition a v).y, (planeSpacePosition a v).z⟩,
          ⟨1, 0, 0, 0⟩⟩) ∧
      batch.length = 4 ∧
      (pcmContactPlaneConvex Contract.externals a).manifold.getNumContacts = 4 ∧
      List.Perm (pcmContactPlaneConvex Contract.externals a).manifold.contacts batch ∧
      (∀ c ∈ (pcmContactPlaneConvex Contract.externals a).manifold.contacts,
        (∃ v ∈ unitCube, face v = true ∧ c.mLocalPointA = v) ∧
        V4GetW c.mLocalNormalPen = 0 ∧ Vec3V_From_Vec4V c.mLocalNormalPen = ⟨1, 0, 0⟩) ∧
      (pcmContactPlaneConvex Contract.externals a).contactBuffer.count =
        a.contactBuffer.count + 4 := by
  obtain ⟨hc, _, hb⟩ := batchCall_some _ a cleared batch h
  have hwf : a.shape1.hullData.WellFormed := by
    unfold ConvexHullData.WellFormed
    rw [hverts, hcount]
    exact ⟨rfl, by decide⟩
  have hfilter : unitCube.filter (fun v => decide (signedDistance a v < a.contactDistance)) =
      unitCube.filter face := by
    apply List.filter_congr
    intro v hv
    rw [hdist v hv]
    cases hf : face v with
    | false =>
      simp only [Bool.false_eq_true, if_false, decide_eq_false_iff_not, not_lt]
      exact heps.2
    | true =>
      simp only [if_true, decide_eq_true_eq]
      exact heps.1
  have hbatch : batch = (unitCube.filter face).map
      (fun v => ⟨v, ⟨0, (planeSpacePosition a v).y, (planeSpacePosition a v).z⟩,
        ⟨1, 0, 0, 0⟩⟩) := by
    rw [hb, candidates_eq a hwf, hverts, hfilter]
    apply List.map_congr_left
    intro v hv
    have hv2 := List.mem_filter.mp hv
    have hd := hdist v hv2.1
    rw [hv2.2, if_pos rfl] at hd
    simp only [candidateOf, hd, vertex2Shape, hscale, vertex2Shape_identity]
  have hlen : batch.length = 4 := by rw [hbatch, List.length_map, hface]
  have hperm : List.Perm (pcmContactPlaneConvex Contract.externals a).manifold.contacts
      batch := by
    rw [pcm_regenerated _ a hc]
    show List.Perm (Contract.addBatchManifoldContacts _ _).contacts batch
    rw [addBatch_contacts, ← hb]
    exact reduceBatchContacts_perm _ (by rw [hlen]; decide)
  have hnum : (pcmContactPlaneConvex Contract.externals a).manifold.getNumContacts = 4 := by
    have h1 : (pcmContactPlaneConvex Contract.externals a).manifold.getNumContacts =
        (Contract.reduceBatchContacts (candidates a)).length := by
      rw [pcm_regenerated _ a hc]
      rfl
    have h2 : (pcmContactPlaneConvex Contract.externals a).manifold.contacts =
        Contract.reduceBatchContacts (candidates a) := by
      rw [pcm_regenerated _ a hc]
      exact addBatch_contacts _ _
    rw [h1, ← h2, hperm.length_eq, hlen]
  refine ⟨hbatch, hlen, hnum, hperm, ?_, ?_⟩
  · intro c hcm
    have hcb : c ∈ batch := hperm.subset hcm
    rw [hbatch] at hcb
    obtain ⟨v, hv, rfl⟩ := List.mem_map.mp hcb
    have hv2 := List.mem_filter.mp hv
    exact ⟨⟨v, hv2.1, hv2.2, rfl⟩, rfl, rfl⟩
  · rw [pcm_count a, hnum]

theorem resting_unit_cube_witness :
    (candidates cubeArgs) = (unitCube.filter (fun v => decide (v.x = 0))).map
        (fun v => ⟨v, ⟨0, (planeSpacePosition cubeArgs v).y, (planeSpacePosition cubeArgs v).z⟩,
          ⟨1, 0, 0, 0⟩⟩) ∧
      (candidates cubeArgs).length = 4 ∧
      (pcmContactPlaneConvex Contract.externals cubeArgs).manifold.getNumContacts = 4 ∧
      List.Perm (pcmContactPlaneConvex Contract.externals cubeArgs).manifold.contacts
        (candidates cubeArgs) ∧
      (∀ c ∈ (pcmContactPlaneConvex Contract.externals cubeArgs).manifold.contacts,
        (∃ v ∈ unitCube, decide (v.x = 0) = true ∧ c.mLocalPointA = v) ∧
        V4GetW c.mLocalNormalPen = 0 ∧ Vec3V_From_Vec4V c.mLocalNormalPen = ⟨1, 0, 0⟩) ∧
      (pcmContactPlaneConvex Contract.externals cubeArgs).contactBuffer.count =
        cubeArgs.contactBuffer.count + 4 :=
  resting_unit_cube_yields_its_four_face_vertices cubeArgs (fun v => decide (v.x = 0))
    rfl rfl rfl (by decide!) (by decide!) ⟨by decide!, by decide!⟩
    ⟨[], 0, transformIdentity⟩ (candidates cubeArgs) (by decide!)

/-! ## Geometric reading of the relative transform and of the signed distance -/

theorem quatSandwich_mul (a b : Quat) (v : Vec3) :
    quatSandwich (QuatMul a b) v = quatSandwich a (quatSandwich b v) := by
  simp only [quatSandwich, QuatRotate, QuatGetMat33V, QuatMul, QuatDot, M33MulV3, V3Add, V3Sub,
    V3Scale, Vec3.mk.injEq]
  refine ⟨?_, ?_, ?_⟩ <;> ring

theorem quatRotate_unit (q : Quat) (hq : QuatDot q q = 1) (v : Vec3) :
    QuatRotate q v = quatSandwich q v := by
  simp [quatSandwich, hq, V3Sub, V3Scale]

theorem quatDot_mul (a b : Quat) :
    QuatDot (QuatMul a b) (QuatMul a b) = QuatDot a a * QuatDot b b := by
  simp only [QuatMul, QuatDot]
  ring

theorem quatDot_conjugate (q : Quat) :
    QuatDot (QuatConjugate q) (QuatConjugate q) = QuatDot q q := by
  simp only [QuatConjugate, QuatDot]
  ring

theorem quatSandwich_cancel (q : Quat) (hq : QuatDot q q = 1) (v : Vec3) :
    quatSandwich q (quatSandwich (QuatConjugate q) v) = v := by
  rw [← quatSandwich_mul]
  have h : QuatMul q (QuatConjugate q) = ⟨0, 0, 0, 1⟩ := by
    simp only [QuatMul, QuatConjugate, QuatDot, Quat.mk.injEq] at hq ⊢
    refine ⟨by ring, by ring, by ring, ?_⟩
    linear_combination hq
  rw [h]
  simp [quatSandwich, QuatRotate, QuatGetMat33V, QuatDot, M33MulV3, V3Add, V3Sub, V3Scale]

/-- For unit rotations the relative transform is the convex transform seen from
the plane: taking a point of the convex to plane space by the relative
transform and on to world space by the plane transform is the same as taking
it to world space by the convex transform. -/
theorem relativeTransform_then_plane_eq_convex (a : ContactMethodArgs)
    (h0 : QuatDot a.transform0.q a.transform0.q = 1)
    (h1 : QuatDot a.transform1.q a.transform1.q = 1) (v : Vec3) :
    a.transform0.transform ((relativeTransform a).transform v) = a.transform1.transform v := by
  have hc : QuatDot (QuatConjugate a.transform0.q) (QuatConjugate a.transform0.q) = 1 := by
    rw [quatDot_conjugate, h0]
  have hm : QuatDot (QuatMul (QuatConjugate a.transform0.q) a.transform1.q)
      (QuatMul (QuatConjugate a.transform0.q) a.transform1.q) = 1 := by
    rw [quatDot_mul, hc, h1, one_mul]
  have hlin : ∀ (q : Quat) (x y : Vec3),
      QuatRotate q (V3Add x y) = V3Add (QuatRotate q x) (QuatRotate q y) := by
    intro q x y
    simp only [QuatRotate, M33MulV3, V3Add, V3Scale, Vec3.mk.injEq]
    refine ⟨?_, ?_, ?_⟩ <;> ring
  simp only [relativeTransform, PsTransformV.transformInv, PsTransformV.transform]
  rw [hlin, quatRotate_unit _ h0, quatRotate_unit _ hm, quatRotate_unit _ h0,
    quatRotate_unit _ hc, quatRotate_unit _ h1, quatSandwich_cancel _ h0,
    quatSandwich_mul, quatSandwich_cancel _ h0]
  simp only [V3Add, V3Sub, Vec3.mk.injEq]
  refine ⟨?_, ?_, ?_⟩ <;> ring

/-- For unit rotations the signed distance of the loop is the geometric one: the
offset of the world-space vertex from the origin of the plane, measured along
the world-space X axis of the plane. -/
theorem signedDistance_eq_world_offset_along_normal (a : ContactMethodArgs)
    (h0 : QuatDot a.transform0.q a.transform0.q = 1)
    (h1 : QuatDot a.transform1.q a.transform1.q = 1) (v : Vec3) :
    signedDistance a v =
      V3Dot (QuatGetBasisVector0 a.transform0.q)
        (V3Sub (a.transform1.transform (M33MulV3 (vertex2Shape a) v)) a.transform0.p) := by
  have hc : QuatDot (QuatConjugate a.transform0.q) (QuatConjugate a.transform0.q) = 1 := by
    rw [quatDot_conjugate, h0]
  have hm : QuatDot (QuatMul (QuatConjugate a.transform0.q) a.transform1.q)
      (QuatMul (QuatConjugate a.transform0.q) a.transform1.q) = 1 := by
    rw [quatDot_mul, hc, h1, one_mul]
  have hrot : ∀ w : Vec3, QuatRotate (QuatMul (QuatConjugate a.transform0.q) a.transform1.q) w =
      QuatRotate (QuatConjugate a.transform0.q) (QuatRotate a.transform1.q w) := by
    intro w
    rw [quatRotate_unit _ hm, quatSandwich_mul, quatRotate_unit _ hc, quatRotate_unit _ h1]
  have hp : planeSpacePosition a v =
      V3Add (QuatRotate (QuatConjugate a.transform0.q) (V3Sub a.transform1.p a.transform0.p))
        (QuatRotate (QuatConjugate a.transform0.q)
          (QuatRotate a.transform1.q (M33MulV3 (vertex2Shape a) v))) := by
    rw [← hrot]
    exact fused_transform_eq v (vertex2Shape a) (PsMatTransformV.ofTransform (relativeTransform a))
  rw [signedDistance, hp, PsTransformV.transform]
  generalize QuatRotate a.transform1.q (M33MulV3 (vertex2Shape a) v) = w
  simp only [QuatRotate, QuatGetMat33V, QuatConjugate, QuatGetBasisVector0, QuatDot, M33MulV3,
    V3Add, V3Sub, V3Scale, V3Dot, PsTransformV.transform] at h0 ⊢
  linear_combination (-2 * (w.x + a.transform1.p.x - a.transform0.p.x)) * h0

/-! ## First contact and empty manifolds -/

theorem refresh_relativeTransform (m : PersistentContactManifold) (t : PsTransformV)
    (b d : PxReal) :
    (Contract.refreshContactPoints m t b d).mRelativeTransform = m.mRelativeTransform := rfl

end PhysX
